import Mathlib

/-!
Shallow embedding of the DEBRA distributed epoch-based reclamation core.

The embedding follows the repository sources:
  * `src/epoch.rs`      — `Epoch`, `AtomicEpoch`, `PossibleAge`, `ThreadState`, `State`
  * `src/bag.rs`        — `EpochBagQueues`, `BagQueue`, `BagPool`, `BagNode`
  * `src/sealed.rs`     — `SealedList`, `Sealed`
  * `src/abandoned.rs`  — `AbandonedQueue`
  * `src/local/inner.rs`— `LocalInner` (`set_active`, `set_inactive`, `try_advance`,
                          `acquire_and_assess_global_epoch`, `rotate_and_reclaim`, `Drop`)
  * `src/local/mod.rs`  — `Local` (guard counting, `new`, `set_active`, `set_inactive`)

Machine words (`usize`) are modelled as `Nat` with explicit reduction modulo `2 ^ 64`.
Atomics are modelled by explicit state passing; a CAS takes the value actually stored
at CAS time, so that a failed CAS (another thread changed the value in between) is
representable.  Reclamation ("destroying" retired records) is modelled by returning
the list of destroyed records as an explicit output.  A Rust `panic!` is modelled by
returning `none`.
-/

/-- Number of values of the 64-bit machine word `usize`. -/
def WORD : Nat := 2 ^ 64

/-- Wrapping 64-bit addition (`usize::wrapping_add`). -/
def wrappingAdd (a b : Nat) : Nat := (a + b) % WORD

/-- Wrapping 64-bit subtraction (`usize::wrapping_sub`). -/
def wrappingSub (a b : Nat) : Nat := (a + (WORD - b % WORD)) % WORD

/-- Constant `EPOCH_INCREMENT` from `src/epoch.rs`. -/
def EPOCH_INCREMENT : Nat := 2

/-- Constant `QUIESCENT_BIT` from `src/epoch.rs`. -/
def QUIESCENT_BIT : Nat := 1

/-- The bitwise complement `!QUIESCENT_BIT` restricted to a 64-bit word. -/
def NOT_QUIESCENT_BIT : Nat := (WORD - 1) ^^^ QUIESCENT_BIT

/-- Enum `PossibleAge` from `src/epoch.rs`. -/
inductive PossibleAge where
  | SameEpoch
  | OneEpoch
  | TwoEpochs
deriving DecidableEq, Repr

/-- Function `Epoch::relative_age` from `src/epoch.rs` (lines 55-63).  `none` models
`Err(Undetermined)`. -/
def Epoch.relative_age (self global_epoch : Nat) : Option PossibleAge :=
  match wrappingSub global_epoch self with
  | 0 => some PossibleAge.SameEpoch
  | 1 => some PossibleAge.OneEpoch
  | 2 => some PossibleAge.TwoEpochs
  | _ => none

/-- Implementation `Add<usize> for Epoch` from `src/epoch.rs`:
`self.0.wrapping_add(rhs * EPOCH_INCREMENT)`. -/
def Epoch.add (self rhs : Nat) : Nat := wrappingAdd self (rhs * EPOCH_INCREMENT % WORD)

/-- Implementation `Sub<usize> for Epoch` from `src/epoch.rs`:
`self.0.wrapping_sub(rhs * EPOCH_INCREMENT)`. -/
def Epoch.sub (self rhs : Nat) : Nat := wrappingSub self (rhs * EPOCH_INCREMENT % WORD)

/-- Function `AtomicEpoch::new` from `src/epoch.rs`: the global epoch starts at zero. -/
def AtomicEpoch.new : Nat := 0

/-- Function `AtomicEpoch::compare_and_swap`: given the value `stored` actually held by
the atomic at CAS time, returns the new stored value.  The store changes only if
`stored = current`. -/
def AtomicEpoch.compare_and_swap (stored current new : Nat) : Nat :=
  if stored = current then new else stored

/-- Enum `State` from `src/epoch.rs`; `Quiescent` is called `Inactive` in
`src/local/inner.rs`. -/
inductive State where
  | Active
  | Quiescent
deriving DecidableEq, Repr

/-- Function `ThreadState::new` from `src/epoch.rs` (line 121): the announcement word of
a freshly registered thread is `global_epoch | QUIESCENT_BIT`. -/
def ThreadState.new (global_epoch : Nat) : Nat := global_epoch ||| QUIESCENT_BIT

/-- Function `ThreadState::store` from `src/epoch.rs`: the word written for a given
epoch and state. -/
def ThreadState.store (epoch : Nat) (state : State) : Nat :=
  match state with
  | State.Active => epoch
  | State.Quiescent => epoch ||| QUIESCENT_BIT

/-- Function `ThreadState::load_decompose` from `src/epoch.rs` (lines 131-134):
decompose an announcement word into `(epoch, state)`; the state is `Active` iff the
quiescent bit is clear. -/
def ThreadState.load_decompose (word : Nat) : Nat × State :=
  (word &&& NOT_QUIESCENT_BIT,
    if word &&& QUIESCENT_BIT = 0 then State.Active else State.Quiescent)

/-- Helper function `can_advance` from `src/local/inner.rs` (lines 257-265): the visited
announcement word permits advancing the iterator iff it announces the global epoch or
is inactive. -/
def can_advance (global_epoch : Nat) (other : Nat) : Bool :=
  let ds := ThreadState.load_decompose other
  ds.1 == global_epoch || ds.2 == State.Quiescent

lemma testBit_not_quiescent (i : Nat) :
    NOT_QUIESCENT_BIT.testBit i = (decide (i < 64) && !decide (i = 0)) := by
  have h1 : (QUIESCENT_BIT : Nat) = 2 ^ 0 := rfl
  rw [NOT_QUIESCENT_BIT, WORD, h1, Nat.testBit_xor, Nat.testBit_two_pow_sub_one,
    Nat.testBit_two_pow]
  rcases eq_or_ne i 0 with h0 | h0
  · subst h0; simp
  · simp [h0, Ne.symm h0]

lemma testBit_eq_false_of_ge_64 (e i : Nat) (hlt : e < WORD) (hi : 64 ≤ i) :
    e.testBit i = false := by
  refine Nat.testBit_lt_two_pow (Nat.lt_of_lt_of_le hlt ?_)
  exact Nat.pow_le_pow_right (by norm_num) hi

lemma testBit_zero_of_even (e : Nat) (he : e % 2 = 0) : e.testBit 0 = false := by
  simp [Nat.testBit_zero, he]

lemma land_not_quiescent_of_even (e : Nat) (he : e % 2 = 0) (hlt : e < WORD) :
    e &&& NOT_QUIESCENT_BIT = e := by
  refine Nat.eq_of_testBit_eq fun i => ?_
  rw [Nat.testBit_land, testBit_not_quiescent]
  rcases eq_or_ne i 0 with h0 | h0
  · subst h0; simp [testBit_zero_of_even e he]
  · rcases Nat.lt_or_ge i 64 with h64 | h64
    · simp [h0, h64]
    · simp [h0, Nat.not_lt.2 h64, testBit_eq_false_of_ge_64 e i hlt h64]

lemma lor_one_land_not_quiescent_of_even (e : Nat) (he : e % 2 = 0) (hlt : e < WORD) :
    (e ||| QUIESCENT_BIT) &&& NOT_QUIESCENT_BIT = e := by
  refine Nat.eq_of_testBit_eq fun i => ?_
  have h1 : (QUIESCENT_BIT : Nat) = 2 ^ 0 := rfl
  rw [Nat.testBit_land, Nat.testBit_lor, testBit_not_quiescent, h1, Nat.testBit_two_pow]
  rcases eq_or_ne i 0 with h0 | h0
  · subst h0; simp [testBit_zero_of_even e he]
  · rcases Nat.lt_or_ge i 64 with h64 | h64
    · simp [h0, h64, Ne.symm h0]
    · simp [h0, Nat.not_lt.2 h64, testBit_eq_false_of_ge_64 e i hlt h64, Ne.symm h0]

lemma land_quiescent_of_even (e : Nat) (he : e % 2 = 0) : e &&& QUIESCENT_BIT = 0 := by
  have h : e &&& 1 = e % 2 := Nat.and_one_is_mod e
  simp only [QUIESCENT_BIT, h, he]

lemma lor_one_land_quiescent (e : Nat) : (e ||| QUIESCENT_BIT) &&& QUIESCENT_BIT = 1 := by
  have hmod : (e ||| 1) &&& 1 = (e ||| 1) % 2 := Nat.and_one_is_mod _
  have hbit : (e ||| 1).testBit 0 = true := by
    rw [Nat.testBit_lor]
    simp [Nat.testBit_zero]
  rw [Nat.testBit_zero] at hbit
  have h : (e ||| 1) % 2 = 1 := of_decide_eq_true hbit
  simp only [QUIESCENT_BIT, hmod, h]

/-- Storing an announcement and decomposing it again is the identity, for the even
epoch values the scheme produces. -/
lemma load_decompose_store (e : Nat) (s : State) (he : e % 2 = 0) (hlt : e < WORD) :
    ThreadState.load_decompose (ThreadState.store e s) = (e, s) := by
  cases s
  · simp [ThreadState.store, ThreadState.load_decompose,
      land_not_quiescent_of_even e he hlt, land_quiescent_of_even e he]
  · simp [ThreadState.store, ThreadState.load_decompose,
      lor_one_land_not_quiescent_of_even e he hlt, lor_one_land_quiescent e]

/-- Constant `DEFAULT_BAG_SIZE` from `src/bag.rs`: the capacity of one bag. -/
def DEFAULT_BAG_SIZE : Nat := 256

/-- Constant `BAG_QUEUE_COUNT` from `src/bag.rs`. -/
def BAG_QUEUE_COUNT : Nat := 3

/-- Constant `BAG_POOL_SIZE` from `src/bag.rs`. -/
def BAG_POOL_SIZE : Nat := 16

/-- A retired record (`Retired` from `src/retired.rs`): either a plain type-erased
owned record, identified by an id, or a leaked `Sealed` header (`src/sealed.rs`,
`src/bag.rs` `SealedQueue`) whose destructor reclaims all records of its bag queue.
A sealed header carries its seal epoch together with the contents of its bag queue:
the head bag's records and the chain of full successor bags. -/
inductive Retired where
  | plain (id : Nat)
  | sealedHdr (sealEpoch : Nat) (head : List Retired) (tail : List (List Retired))

/-- `BagQueue` from `src/bag.rs` (lines 189-262): the head bag's records (in push
order) plus the linked chain of successor bags, nearest-first.  The source invariant:
the head bag is never full, all successor bags are full. -/
structure BagQueue where
  head : List Retired
  tail : List (List Retired)

/-- `BagPool::allocate_bag` from `src/bag.rs` (lines 136-139): pop a pooled empty bag,
or allocate a fresh one if the pool is empty.  The pool is modelled by the number of
pooled (empty) bags, so allocation is truncated subtraction. -/
def BagPool.allocate_bag (pool : Nat) : Nat := pool - 1

/-- `BagPool::recycle_bag` from `src/bag.rs` (lines 141-147): return an emptied bag
shell to the pool if there is room, otherwise deallocate it. -/
def BagPool.recycle_bag (pool : Nat) : Nat :=
  if pool < BAG_POOL_SIZE then pool + 1 else pool

/-- `BagQueue::is_empty` from `src/bag.rs` (lines 201-204). -/
def BagQueue.is_empty (q : BagQueue) : Bool :=
  q.head.length == 0 && q.tail.isEmpty

/-- `BagQueue::retire_record` from `src/bag.rs` (lines 221-231): push the record into
the head bag (which always has room); if the head bag just became full, swap in a
fresh bag from the pool as the new head and link the full bag as its successor. -/
def BagQueue.retire_record (q : BagQueue) (record : Retired) (pool : Nat) :
    BagQueue × Nat :=
  let head := q.head ++ [record]
  if head.length = DEFAULT_BAG_SIZE then
    (⟨[], head :: q.tail⟩, BagPool.allocate_bag pool)
  else
    (⟨head, q.tail⟩, pool)

/-- `BagQueue::reclaim_full_bags` from `src/bag.rs` (lines 237-248): unlink the whole
successor chain of the head bag, destroy every record in those bags and recycle each
emptied bag shell into the pool.  Returns the new queue, the new pool and the list of
destroyed records. -/
def BagQueue.reclaim_full_bags (q : BagQueue) (pool : Nat) :
    BagQueue × Nat × List Retired :=
  (⟨q.head, []⟩, q.tail.foldl (fun p _ => BagPool.recycle_bag p) pool, q.tail.flatten)

/-- `EpochBagQueues` from `src/bag.rs` (lines 18-21): three bag queues and the rotating
cursor `curr_idx`. -/
structure EpochBagQueues where
  q0 : BagQueue
  q1 : BagQueue
  q2 : BagQueue
  curr_idx : Nat

/-- Array indexing `queues[i]` for the three-queue array (`i` is always in `{0,1,2}`
in the source). -/
def EpochBagQueues.get (b : EpochBagQueues) (i : Nat) : BagQueue :=
  match i with
  | 0 => b.q0
  | 1 => b.q1
  | _ => b.q2

/-- Array update `queues[i] = q` for the three-queue array. -/
def EpochBagQueues.set (b : EpochBagQueues) (i : Nat) (q : BagQueue) : EpochBagQueues :=
  match i with
  | 0 => { b with q0 := q }
  | 1 => { b with q1 := q }
  | _ => { b with q2 := q }

/-- `EpochBagQueues::new` from `src/bag.rs` (lines 26-28). -/
def EpochBagQueues.new : EpochBagQueues :=
  { q0 := ⟨[], []⟩, q1 := ⟨[], []⟩, q2 := ⟨[], []⟩, curr_idx := 0 }

/-- `EpochBagQueues::retire_record` from `src/bag.rs` (lines 49-52): retire into the
current queue. -/
def EpochBagQueues.retire_record (b : EpochBagQueues) (record : Retired) (pool : Nat) :
    EpochBagQueues × Nat :=
  let r := (b.get b.curr_idx).retire_record record pool
  (b.set b.curr_idx r.1, r.2)

/-- `EpochBagQueues::retire_final_record` from `src/bag.rs` (lines 90-93): an unchecked
push into the current head bag, without the full-bag swap. -/
def EpochBagQueues.retire_final_record (b : EpochBagQueues) (record : Retired) :
    EpochBagQueues :=
  let q := b.get b.curr_idx
  b.set b.curr_idx ⟨q.head ++ [record], q.tail⟩

/-- `EpochBagQueues::rotate_and_reclaim` from `src/bag.rs` (lines 102-106): advance
`curr_idx` by one (mod 3), then reclaim the full bags of the queue now under the
cursor.  Returns the new ring, the new pool and the destroyed records. -/
def EpochBagQueues.rotate_and_reclaim (b : EpochBagQueues) (pool : Nat) :
    EpochBagQueues × Nat × List Retired :=
  let idx := (b.curr_idx + 1) % BAG_QUEUE_COUNT
  let r := (b.get idx).reclaim_full_bags pool
  ({ b.set idx r.1 with curr_idx := idx }, r.2.1, r.2.2)

/-- `EpochBagQueues::retire_sealed` from `src/bag.rs` (lines 54-80): place a sealed
queue whose relative age is determined into the queue selected by that age, by pushing
the leaked sealed header as a single retired record through the usual retire path;
a sealed queue of undetermined age is dropped, which destroys every record it holds
(`impl Drop for Sealed`, `src/sealed.rs` lines 69-76). -/
def EpochBagQueues.retire_sealed (b : EpochBagQueues) (global_epoch sealEpoch : Nat)
    (shead : List Retired) (stail : List (List Retired)) (pool : Nat) :
    EpochBagQueues × Nat × List Retired :=
  match Epoch.relative_age sealEpoch global_epoch with
  | some age =>
      let i := match age with
        | PossibleAge.SameEpoch => b.curr_idx
        | PossibleAge.OneEpoch => (b.curr_idx + 2) % BAG_QUEUE_COUNT
        | PossibleAge.TwoEpochs => (b.curr_idx + 1) % BAG_QUEUE_COUNT
      let r := (b.get i).retire_record (Retired.sealedHdr sealEpoch shead stail) pool
      (b.set i r.1, r.2, [])
  | none => (b, pool, shead ++ stail.flatten)

/-- `EpochBagQueues::into_sorted` from `src/bag.rs` (lines 109-117): the three queues
ordered newest-first, starting with the current queue.  The `_` arm is `unreachable!()`
in the source (`curr_idx` is always in `{0,1,2}`). -/
def EpochBagQueues.into_sorted (b : EpochBagQueues) : List BagQueue :=
  match b.curr_idx with
  | 0 => [b.q0, b.q2, b.q1]
  | 1 => [b.q1, b.q0, b.q2]
  | 2 => [b.q2, b.q1, b.q0]
  | _ => []

/-- `Sealed` from `src/sealed.rs` (lines 52-56): a bag queue sealed with the epoch
during which its contents were retired. -/
structure Sealed where
  sealEpoch : Nat
  head : List Retired
  tail : List (List Retired)

/-- `Sealed::from_queue` from `src/sealed.rs` (lines 62-66) together with
`BagQueue::into_sealed` (`src/bag.rs` lines 209-219): wrap a non-empty queue, drop an
empty one. -/
def Sealed.from_queue (q : BagQueue) (epoch : Nat) : Option Sealed :=
  if q.is_empty then none else some ⟨epoch, q.head, q.tail⟩

/-- Destructor `impl Drop for Sealed` from `src/sealed.rs` (lines 71-76): dropping a
sealed element reclaims every record in its queue. -/
def Sealed.drop_reclaims (s : Sealed) : List Retired := s.head ++ s.tail.flatten

/-- `SealedList::from_bags` from `src/sealed.rs` (lines 26-45): seal the queues
newest-first, stamping the queue at sorted position `idx` with `current_epoch - idx`,
keeping only the non-empty ones, linked in iteration order. -/
def SealedList.from_bags (bags : EpochBagQueues) (current_epoch : Nat) : List Sealed :=
  bags.into_sorted.enum.filterMap fun p => Sealed.from_queue p.2 (Epoch.sub current_epoch p.1)

/-- `AbandonedQueue::push` from `src/abandoned.rs` (lines 37-49): link the pushed
sealed list in front of the current stack. -/
def AbandonedQueue.push (stack : List Sealed) (sealed : List Sealed) : List Sealed :=
  sealed ++ stack

/-- `AbandonedQueue::take_all` from `src/abandoned.rs` (lines 53-57): atomically swap
the whole stack out, leaving it empty. -/
def AbandonedQueue.take_all (stack : List Sealed) : List Sealed × List Sealed :=
  (stack, [])

/-- `Config` from `src/config.rs`: the two tunables read by `LocalInner`. -/
structure Config where
  check_threshold : Nat
  advance_threshold : Nat

/-- One registry entry of the global thread list (`src/list.rs` node holding a
`ThreadState`): an identity (modelling the node's address, used by
`ThreadState::is_same`) and the atomic announcement word. -/
structure ThreadSlot where
  id : Nat
  word : Nat

/-- The shared global state (`src/global.rs`): the atomic global epoch `EPOCH`, the
thread registry `THREADS` (head-first) and the abandoned-bags stack `ABANDONED`. -/
structure World where
  epoch : Nat
  threads : List ThreadSlot
  abandoned : List Sealed

/-- `LocalInner` from `src/local/inner.rs` (lines 29-50).  The restartable registry
iterator is modelled by its position in the registry snapshot (0 = head). -/
structure LocalInner where
  advance_count : Nat
  bags : EpochBagQueues
  bag_pool : Nat
  cached_local_epoch : Nat
  can_advance : Bool
  check_count : Nat
  config : Config
  thread_iter : Nat

/-- `LocalInner::new` from `src/local/inner.rs` (lines 57-68). -/
def LocalInner.new (global_epoch : Nat) (config : Config) : LocalInner :=
  { advance_count := 0, bags := EpochBagQueues.new, bag_pool := 0,
    cached_local_epoch := global_epoch, can_advance := false, check_count := 0,
    config := config, thread_iter := 0 }

/-- A store to the calling thread's own announcement word (`thread_state.store`):
update the registry slot with the caller's identity. -/
def store_thread_word (threads : List ThreadSlot) (id word : Nat) : List ThreadSlot :=
  threads.map fun t => if t.id = id then { t with word := word } else t

/-- The body shared by both arms of `try_advance` (`src/local/inner.rs` lines
180-190): if the observed thread is the caller itself, has announced the global
epoch, or is inactive, increment `advance_count`, advance the iterator one step
and, once a full sweep has been completed (`can_advance`) and `advance_count` has
reached the advance threshold, CAS the global epoch forward by one; otherwise
leave everything unchanged. -/
def try_advance_step (li : LocalInner) (self_id : Nat) (other : ThreadSlot)
    (global_epoch world_epoch : Nat) : LocalInner × Nat :=
  if other.id == self_id || can_advance global_epoch other.word then
    let li' := { li with advance_count := li.advance_count + 1,
                         thread_iter := li.thread_iter + 1 }
    if li'.can_advance && li'.config.advance_threshold ≤ li'.advance_count then
      (li', AtomicEpoch.compare_and_swap world_epoch global_epoch (Epoch.add global_epoch 1))
    else
      (li', world_epoch)
  else
    (li, world_epoch)

/-- `LocalInner::try_advance` from `src/local/inner.rs` (lines 162-192).
`global_epoch` is the epoch value loaded earlier in `set_active`; `world_epoch` is the
value held by the atomic at CAS time (they differ when another thread advanced the
epoch in between).  `none` models the `unreachable!()` in the source (the registry can
never be empty because the calling thread is registered).  The position loaded by
`load_current_acquire` is `threads[thread_iter]`; walking past the end sets
`can_advance`, resets the iterator and examines the registry head. -/
def LocalInner.try_advance (li : LocalInner) (self_id : Nat) (threads : List ThreadSlot)
    (global_epoch world_epoch : Nat) : Option (LocalInner × Nat) :=
  match threads.get? li.thread_iter with
  | some other => some (try_advance_step li self_id other global_epoch world_epoch)
  | none =>
      let li' := { li with can_advance := true, thread_iter := 0 }
      match threads.head? with
      | some other => some (try_advance_step li' self_id other global_epoch world_epoch)
      | none => none

/-- The rotate-and-adopt step `LocalInner::rotate_and_reclaim` from
`src/local/inner.rs` (lines 222-237): rotate the bag ring, reclaiming the oldest
queue's full bags, then adopt every sealed queue taken from the abandoned stack,
retiring each according to its age relative to the already-updated cached epoch
(sealed queues of undetermined age are dropped and their contents reclaimed right
away).  Returns the updated state and all records destroyed. -/
def LocalInner.rotate_and_reclaim (li : LocalInner) (abandoned_taken : List Sealed) :
    LocalInner × List Retired :=
  let r := li.bags.rotate_and_reclaim li.bag_pool
  let li0 := { li with bags := r.1, bag_pool := r.2.1 }
  abandoned_taken.foldl
    (fun acc s =>
      let rr := acc.1.bags.retire_sealed acc.1.cached_local_epoch s.sealEpoch s.head s.tail
        acc.1.bag_pool
      ({ acc.1 with bags := rr.1, bag_pool := rr.2.1 }, acc.2 ++ rr.2.2))
    (li0, r.2.2)

/-- `LocalInner::advance_local_epoch` from `src/local/inner.rs` (lines 204-212): cache
the new global epoch, restart all incremental checks and rotate/adopt. -/
def LocalInner.advance_local_epoch (li : LocalInner) (global_epoch : Nat)
    (abandoned_taken : List Sealed) : LocalInner × List Retired :=
  LocalInner.rotate_and_reclaim
    { li with cached_local_epoch := global_epoch, can_advance := false,
              check_count := 0, advance_count := 0, thread_iter := 0 }
    abandoned_taken

/-- `LocalInner::acquire_and_assess_global_epoch` from `src/local/inner.rs` (lines
131-142): load the global epoch; if it differs from the cached one, restart all checks,
rotate the bag ring and adopt the abandoned stack (which is taken whole).  Returns the
loaded epoch, the updated local state, the updated world and the destroyed records. -/
def LocalInner.acquire_and_assess_global_epoch (li : LocalInner) (w : World) :
    Nat × LocalInner × World × List Retired :=
  let global_epoch := w.epoch
  if li.cached_local_epoch ≠ global_epoch then
    let r := li.advance_local_epoch global_epoch (AbandonedQueue.take_all w.abandoned).1
    (global_epoch, r.1, { w with abandoned := (AbandonedQueue.take_all w.abandoned).2 }, r.2)
  else
    (global_epoch, li, w, [])

/-- `LocalInner::set_active` from `src/local/inner.rs` (lines 82-97): assess the global
epoch, bump `check_count`, run `try_advance` when the check threshold is reached, then
announce `(global_epoch, Active)`.  `none` models the `unreachable!()` inside
`try_advance`. -/
def LocalInner.set_active (li : LocalInner) (self_id : Nat) (w : World) :
    Option (LocalInner × World × List Retired) :=
  let a := li.acquire_and_assess_global_epoch w
  let global_epoch := a.1
  let li1 := { a.2.1 with check_count := a.2.1.check_count + 1 }
  let w1 := a.2.2.1
  let destroyed := a.2.2.2
  let step : Option (LocalInner × Nat) :=
    if li1.check_count = li1.config.check_threshold then
      LocalInner.try_advance { li1 with check_count := 0 } self_id w1.threads global_epoch
        w1.epoch
    else
      some (li1, w1.epoch)
  match step with
  | none => none
  | some (li2, epoch2) =>
      some (li2,
        { w1 with epoch := epoch2,
                  threads := store_thread_word w1.threads self_id
                    (ThreadState.store global_epoch State.Active) },
        destroyed)

/-- `LocalInner::set_inactive` from `src/local/inner.rs` (lines 101-105): announce
`(cached_local_epoch, Inactive)`. -/
def LocalInner.set_inactive (li : LocalInner) (self_id : Nat)
    (threads : List ThreadSlot) : List ThreadSlot :=
  store_thread_word threads self_id
    (ThreadState.store li.cached_local_epoch State.Quiescent)

/-- Destructor `impl Drop for LocalInner` from `src/local/inner.rs` (lines 242-253):
seal the non-empty bag queues and push them onto the abandoned stack; push nothing if
every queue is empty. -/
def LocalInner.drop (li : LocalInner) (w : World) : World :=
  let sealed := SealedList.from_bags li.bags li.cached_local_epoch
  if sealed.isEmpty then w
  else { w with abandoned := AbandonedQueue.push w.abandoned sealed }

/-- `Local` from `src/local/mod.rs` (lines 26-30): the registry entry identity, the
guard nesting counter and the inner state. -/
structure Local where
  self_id : Nat
  guard_count : Nat
  inner : LocalInner

/-- `Local::new` from `src/local/mod.rs` (lines 36-46): load the global epoch, create
the announcement word via `ThreadState::new` and insert it at the registry head. -/
def Local.new (w : World) (new_id : Nat) (config : Config) : Local × World :=
  let global_epoch := w.epoch
  ({ self_id := new_id, guard_count := 0, inner := LocalInner.new global_epoch config },
   { w with threads := ⟨new_id, ThreadState.new global_epoch⟩ :: w.threads })

/-- `set_active` from `src/local/mod.rs` (lines 66-76): bump the guard count; on the
0 → 1 transition run the inner `set_active`. -/
def Local.set_active (l : Local) (w : World) : Option (Local × World × List Retired) :=
  let count := l.guard_count
  if count = 0 then
    match l.inner.set_active l.self_id w with
    | none => none
    | some (li, w1, destroyed) =>
        some ({ l with guard_count := count + 1, inner := li }, w1, destroyed)
  else
    some ({ l with guard_count := count + 1 }, w, [])

/-- `set_inactive` from `src/local/mod.rs` (lines 78-88): decrement the guard count;
on the 1 → 0 transition run the inner `set_inactive`; on a zero guard count the
explicit `guard count overflow detected` abort is reached (in release builds the
decrement wraps and the abort branch fires; in debug builds the decrement itself
aborts), modelled by `none`. -/
def Local.set_inactive (l : Local) (w : World) : Option (Local × World) :=
  let count := l.guard_count
  if count = 1 then
    some ({ l with guard_count := 0 },
      { w with threads := l.inner.set_inactive l.self_id w.threads })
  else if count = 0 then
    none
  else
    some ({ l with guard_count := count - 1 }, w)

lemma WORD_eq : WORD = 18446744073709551616 := by norm_num [WORD]

/-- C1 (counterexample): the relative-age table claimed by the specification fails on
the code.  At wrapping difference 2 the code reports `TwoEpochs` (age 2), not age 1;
at difference 4 it reports undetermined rather than age 2; and at difference 1 it
reports age 1 rather than undetermined. -/
theorem relative_age_claimed_table_counterexample :
    Epoch.relative_age 0 2 = some PossibleAge.TwoEpochs ∧
    Epoch.relative_age 0 2 ≠ some PossibleAge.OneEpoch ∧
    Epoch.relative_age 0 4 = none ∧
    Epoch.relative_age 0 1 = some PossibleAge.OneEpoch := by
  refine ⟨by decide, by decide, by decide, by decide⟩

/-- C1 (amended): `Epoch::relative_age (observed, reference)` computes the wrapping
difference `reference − observed` and reports ages 0, 1, 2 for differences 0, 1, 2
respectively; any other difference is undetermined, meaning the observed epoch is too
old and its records are safe to destroy immediately. -/
theorem relative_age_amended_table (observed reference : Nat)
    (ho : observed < WORD) (_hr : reference < WORD) :
    (Epoch.relative_age observed reference = some PossibleAge.SameEpoch ↔
      (reference + WORD - observed) % WORD = 0) ∧
    (Epoch.relative_age observed reference = some PossibleAge.OneEpoch ↔
      (reference + WORD - observed) % WORD = 1) ∧
    (Epoch.relative_age observed reference = some PossibleAge.TwoEpochs ↔
      (reference + WORD - observed) % WORD = 2) ∧
    (Epoch.relative_age observed reference = none ↔
      2 < (reference + WORD - observed) % WORD) := by
  have hsub : wrappingSub reference observed = (reference + WORD - observed) % WORD := by
    unfold wrappingSub
    rw [Nat.mod_eq_of_lt ho]
    congr 1
    omega
  unfold Epoch.relative_age
  rw [hsub]
  rcases hd : (reference + WORD - observed) % WORD with _ | _ | _ | n <;> simp [hd]

/-- Witness for C1 (amended) at the concrete input `(observed, reference) = (0, 2)`. -/
theorem relative_age_amended_table_witness :
    Epoch.relative_age 0 2 = some PossibleAge.TwoEpochs ↔ (2 + WORD - 0) % WORD = 2 :=
  (relative_age_amended_table 0 2 (by decide) (by decide)).2.2.1

lemma try_advance_step_epoch_change (li : LocalInner) (self_id : Nat)
    (other : ThreadSlot) (g we : Nat) (li' : LocalInner) (e' : Nat)
    (h : try_advance_step li self_id other g we = (li', e')) :
    e' = we ∨ (we = g ∧ e' = Epoch.add g 1) := by
  simp only [try_advance_step] at h
  split at h
  · split at h
    · injection h with h1 h2
      unfold AtomicEpoch.compare_and_swap at h2
      split at h2
      · right; exact ⟨by assumption, h2.symm⟩
      · left; exact h2.symm
    · injection h with h1 h2
      left; exact h2.symm
  · injection h with h1 h2
    left; exact h2.symm

lemma try_advance_epoch_change (li : LocalInner) (self_id : Nat)
    (threads : List ThreadSlot) (g we : Nat) (li' : LocalInner) (e' : Nat)
    (h : LocalInner.try_advance li self_id threads g we = some (li', e')) :
    e' = we ∨ (we = g ∧ e' = Epoch.add g 1) := by
  unfold LocalInner.try_advance at h
  rcases hget : threads.get? li.thread_iter with _ | other <;> rw [hget] at h
  · rcases hhead : threads.head? with _ | other <;> rw [hhead] at h
    · cases h
    · exact try_advance_step_epoch_change _ _ _ _ _ _ _ (Option.some.inj h)
  · exact try_advance_step_epoch_change _ _ _ _ _ _ _ (Option.some.inj h)

/-- C6: the global epoch counter starts at 0; whenever `try_advance` changes the
stored epoch, the change is a successful CAS from the loaded value `g` to `g + 2`
wrapping; and epoch addition and subtraction of an integer `k` are wrapping addition
and subtraction of `2k` on the machine word (subtraction is the wrapping inverse of
adding `2k`). -/
theorem epoch_arithmetic_spec :
    AtomicEpoch.new = 0 ∧
    (∀ li self_id threads g we li' e',
        LocalInner.try_advance li self_id threads g we = some (li', e') →
        e' ≠ we → we = g ∧ e' = (g + 2) % WORD) ∧
    (∀ e k, Epoch.add e k = (e + 2 * k) % WORD) ∧
    (∀ e k, Epoch.sub (Epoch.add e k) k = e % WORD ∧
        Epoch.add (Epoch.sub e k) k = e % WORD) := by
  have hadd : ∀ e k, Epoch.add e k = (e + 2 * k) % WORD := by
    intro e k
    simp only [Epoch.add, wrappingAdd, EPOCH_INCREMENT, WORD_eq]
    omega
  refine ⟨rfl, ?_, hadd, ?_⟩
  · intro li self_id threads g we li' e' h hne
    rcases try_advance_epoch_change li self_id threads g we li' e' h with he | ⟨hwe, he⟩
    · exact absurd he hne
    · exact ⟨hwe, by rw [he, hadd g 1]⟩
  · intro e k
    constructor <;>
      · simp only [Epoch.add, Epoch.sub, wrappingAdd, wrappingSub, EPOCH_INCREMENT, WORD_eq]
        omega

/-- Witness for C6: a concrete `try_advance` call that advances the epoch from 0
to 2. -/
theorem epoch_arithmetic_spec_witness :
    (0 : Nat) = 0 ∧ (2 : Nat) = (0 + 2) % WORD :=
  epoch_arithmetic_spec.2.1 ⟨0, EpochBagQueues.new, 0, 0, false, 0, ⟨100, 1⟩, 1⟩ 7
    [⟨5, 1⟩] 0 0 ⟨1, EpochBagQueues.new, 0, 0, true, 0, ⟨100, 1⟩, 1⟩ 2 (by rfl)
    (by decide)

/-- C10: calling `set_inactive` (guard exit) with a zero guard count always reaches the
abort (in release builds the counter decrement wraps and the explicit
`guard count overflow detected` branch fires; in debug builds the decrement itself
aborts); a successful `set_inactive` requires a positive guard count and decrements it
by one, so the observable guard count never goes below zero. -/
theorem set_inactive_underflow_spec (l : Local) (w : World) :
    (l.guard_count = 0 → Local.set_inactive l w = none) ∧
    (∀ l2 w2, Local.set_inactive l w = some (l2, w2) →
      1 ≤ l.guard_count ∧ l2.guard_count = l.guard_count - 1) := by
  constructor
  · intro h
    simp [Local.set_inactive, h]
  · intro l2 w2 h
    simp only [Local.set_inactive] at h
    split_ifs at h with h1 h0 <;>
      simp only [Option.some.injEq, Prod.mk.injEq] at h
    · obtain ⟨hl, _⟩ := h
      subst hl
      simp [h1]
    · obtain ⟨hl, _⟩ := h
      subst hl
      constructor
      · omega
      · simp

/-- C9: a newly registered thread is inserted at the head of the registry, its guard
count starts at zero, and its announcement word decodes to `(g, Inactive)` where `g`
is the global epoch loaded at registration time. -/
theorem local_new_registration_spec (w : World) (new_id : Nat) (config : Config)
    (heven : w.epoch % 2 = 0) (hlt : w.epoch < WORD) :
    (Local.new w new_id config).2.threads =
      { id := new_id, word := ThreadState.new w.epoch } :: w.threads ∧
    ThreadState.load_decompose (ThreadState.new w.epoch) = (w.epoch, State.Quiescent) ∧
    (Local.new w new_id config).1.guard_count = 0 := by
  refine ⟨rfl, ?_, rfl⟩
  have h : ThreadState.new w.epoch = ThreadState.store w.epoch State.Quiescent := rfl
  rw [h, load_decompose_store _ _ heven hlt]

/-- Witness for C9 at a world with global epoch 4 and one registered thread. -/
theorem local_new_registration_spec_witness :
    (Local.new ⟨4, [⟨1, 5⟩], []⟩ 9 ⟨100, 100⟩).2.threads =
      { id := 9, word := ThreadState.new 4 } :: [⟨1, 5⟩] ∧
    ThreadState.load_decompose (ThreadState.new 4) = (4, State.Quiescent) ∧
    (Local.new ⟨4, [⟨1, 5⟩], []⟩ 9 ⟨100, 100⟩).1.guard_count = 0 :=
  local_new_registration_spec ⟨4, [⟨1, 5⟩], []⟩ 9 ⟨100, 100⟩ (by decide) (by decide)

/-- C2 (counterexample): `rotate_and_reclaim` does not empty the head bag of the queue
brought under the cursor.  Starting from a ring with cursor 0 whose queue 1 holds one
record in its head bag, after the rotation queue 1 (the new current queue) still holds
that record in its head bag. -/
theorem rotate_and_reclaim_head_counterexample :
    ((EpochBagQueues.rotate_and_reclaim ⟨⟨[], []⟩, ⟨[Retired.plain 7], []⟩, ⟨[], []⟩, 0⟩
        0).1.get 1).head = [Retired.plain 7] ∧
    [Retired.plain 7] ≠ ([] : List Retired) :=
  ⟨rfl, fun h => List.noConfusion h⟩

/-- C2 (amended): `rotate_and_reclaim` advances the cursor to `(cur + 1) % 3`, destroys
exactly the records held in the full bags (the successors of the head bag) of
`queues[cur]`, unlinks that successor chain while recycling the emptied bag shells into
the bounded bag pool, leaves the other two queues untouched, and leaves the head bag of
`queues[cur]` in place with its records untouched (it is not emptied). -/
theorem rotate_and_reclaim_amended (b : EpochBagQueues) (pool : Nat)
    (hcur : b.curr_idx < 3) :
    (b.rotate_and_reclaim pool).1.curr_idx = (b.curr_idx + 1) % 3 ∧
    (b.rotate_and_reclaim pool).2.2 = (b.get ((b.curr_idx + 1) % 3)).tail.flatten ∧
    ((b.rotate_and_reclaim pool).1.get ((b.curr_idx + 1) % 3)).tail = [] ∧
    ((b.rotate_and_reclaim pool).1.get ((b.curr_idx + 1) % 3)).head =
      (b.get ((b.curr_idx + 1) % 3)).head ∧
    (∀ j, j < 3 → j ≠ (b.curr_idx + 1) % 3 →
      (b.rotate_and_reclaim pool).1.get j = b.get j) ∧
    (b.rotate_and_reclaim pool).2.1 =
      (b.get ((b.curr_idx + 1) % 3)).tail.foldl (fun p _ => BagPool.recycle_bag p) pool := by
  obtain ⟨qa, qb, qc, ci⟩ := b
  simp only at hcur
  have h3 : ci = 0 ∨ ci = 1 ∨ ci = 2 := by omega
  rcases h3 with h | h | h <;> subst h <;>
    refine ⟨?_, ?_, ?_, ?_, ?_, ?_⟩ <;>
    norm_num [EpochBagQueues.rotate_and_reclaim, BagQueue.reclaim_full_bags,
      EpochBagQueues.get, EpochBagQueues.set, BAG_QUEUE_COUNT] <;>
    · intro j hj hne
      have hj3 : j = 0 ∨ j = 1 ∨ j = 2 := by omega
      rcases hj3 with hh | hh | hh <;> subst hh <;>
        simp_all [EpochBagQueues.get, EpochBagQueues.set]

/-- Witness for C2 (amended) at a concrete ring with cursor 0 and a full bag behind the
head of queue 1. -/
theorem rotate_and_reclaim_amended_witness :
    ((EpochBagQueues.rotate_and_reclaim ⟨⟨[], []⟩, ⟨[Retired.plain 7], [[Retired.plain 8]]⟩,
        ⟨[], []⟩, 0⟩ 0).1.curr_idx) =
      (((⟨⟨[], []⟩, ⟨[Retired.plain 7], [[Retired.plain 8]]⟩, ⟨[], []⟩, 0⟩ :
        EpochBagQueues).curr_idx + 1) % 3) :=
  (rotate_and_reclaim_amended
    ⟨⟨[], []⟩, ⟨[Retired.plain 7], [[Retired.plain 8]]⟩, ⟨[], []⟩, 0⟩ 0 (by decide)).1

/-- Well-formedness of one bag queue (the documented invariant of `BagQueue` in
`src/bag.rs`): the head bag always has room for at least one more record and every
successor bag is full. -/
def BagQueue.wf (q : BagQueue) : Prop :=
  q.head.length < DEFAULT_BAG_SIZE ∧ ∀ bag ∈ q.tail, bag.length = DEFAULT_BAG_SIZE

/-- Well-formedness of the whole ring: every queue is well-formed. -/
def EpochBagQueues.wf (b : EpochBagQueues) : Prop :=
  b.q0.wf ∧ b.q1.wf ∧ b.q2.wf

/-- One operation on the epoch-bag ring: a retirement or a rotation (the operations of
claim C5; `retire_final_record` is excluded). -/
inductive RingOp where
  | retire (record : Retired)
  | rotate

/-- Apply one ring operation to the ring and the bag pool. -/
def RingOp.apply (s : EpochBagQueues × Nat) (op : RingOp) : EpochBagQueues × Nat :=
  match op with
  | RingOp.retire record => s.1.retire_record record s.2
  | RingOp.rotate =>
      let r := s.1.rotate_and_reclaim s.2
      (r.1, r.2.1)

/-- Run a sequence of ring operations from the freshly created ring and empty pool. -/
def runRingOps (ops : List RingOp) : EpochBagQueues × Nat :=
  ops.foldl RingOp.apply (EpochBagQueues.new, 0)

lemma retire_record_wf (q : BagQueue) (record : Retired) (pool : Nat) (h : q.wf) :
    ((q.retire_record record pool).1).wf := by
  unfold BagQueue.retire_record
  by_cases hfull : (q.head ++ [record]).length = DEFAULT_BAG_SIZE
  · rw [if_pos hfull]
    refine ⟨by norm_num [DEFAULT_BAG_SIZE], ?_⟩
    intro bag hbag
    rcases List.mem_cons.mp hbag with hb | hb
    · rw [hb]; exact hfull
    · exact h.2 bag hb
  · rw [if_neg hfull]
    refine ⟨?_, h.2⟩
    have h1 := h.1
    simp only [List.length_append, List.length_cons, List.length_nil] at hfull ⊢
    omega

lemma reclaim_full_bags_wf (q : BagQueue) (pool : Nat) (h : q.wf) :
    ((q.reclaim_full_bags pool).1).wf :=
  ⟨h.1, fun bag hb => absurd hb (List.not_mem_nil bag)⟩

lemma get_wf (b : EpochBagQueues) (h : b.wf) (i : Nat) : (b.get i).wf := by
  rcases i with _ | _ | i
  · exact h.1
  · exact h.2.1
  · exact h.2.2

lemma set_wf (b : EpochBagQueues) (q : BagQueue) (hb : b.wf) (hq : q.wf) (i : Nat) :
    (b.set i q).wf := by
  rcases i with _ | _ | i
  · exact ⟨hq, hb.2.1, hb.2.2⟩
  · exact ⟨hb.1, hq, hb.2.2⟩
  · exact ⟨hb.1, hb.2.1, hq⟩

lemma ring_retire_wf (b : EpochBagQueues) (record : Retired) (pool : Nat) (h : b.wf) :
    ((b.retire_record record pool).1).wf :=
  set_wf b _ h (retire_record_wf _ record pool (get_wf b h b.curr_idx)) b.curr_idx

lemma ring_rotate_wf (b : EpochBagQueues) (pool : Nat) (h : b.wf) :
    ((b.rotate_and_reclaim pool).1).wf :=
  set_wf b _ h
    (reclaim_full_bags_wf _ pool (get_wf b h ((b.curr_idx + 1) % BAG_QUEUE_COUNT)))
    ((b.curr_idx + 1) % BAG_QUEUE_COUNT)

/-- C5: along every sequence of `retire_record` and `rotate_and_reclaim` operations
(excluding `retire_final_record`), every bag queue of the ring keeps the invariant that
its head bag has room for at least one more record and every bag behind the head is
full; and when a push fills the head bag, a fresh empty bag is swapped in as the new
head (taken from the pool, the pool allocating a fresh bag only when empty, which
truncated subtraction models) and the now-full bag becomes its first successor. -/
theorem bag_ring_invariant :
    (∀ ops : List RingOp, (runRingOps ops).1.wf) ∧
    (∀ (q : BagQueue) (record : Retired) (pool : Nat),
      (q.head ++ [record]).length = DEFAULT_BAG_SIZE →
      q.retire_record record pool =
        (⟨[], (q.head ++ [record]) :: q.tail⟩, pool - 1)) := by
  constructor
  · have hstep : ∀ (ops : List RingOp) (s : EpochBagQueues × Nat), s.1.wf →
        (ops.foldl RingOp.apply s).1.wf := by
      intro ops
      induction ops with
      | nil => intro s h; exact h
      | cons op ops ih =>
          intro s h
          refine ih _ ?_
          cases op with
          | retire record => exact ring_retire_wf s.1 record s.2 h
          | rotate => exact ring_rotate_wf s.1 s.2 h
    intro ops
    refine hstep ops _ ?_
    refine ⟨⟨?_, ?_⟩, ⟨?_, ?_⟩, ⟨?_, ?_⟩⟩ <;>
      simp [EpochBagQueues.new, DEFAULT_BAG_SIZE]
  · intro q record pool hfull
    unfold BagQueue.retire_record
    rw [if_pos hfull]
    rfl

set_option maxRecDepth 8192 in
/-- Witness for C5: the 256th record pushed into a fresh head bag triggers the
head-bag swap. -/
theorem bag_ring_invariant_witness :
    BagQueue.retire_record ⟨List.replicate 255 (Retired.plain 0), []⟩ (Retired.plain 1) 3 =
      (⟨[], (List.replicate 255 (Retired.plain 0) ++ [Retired.plain 1]) :: []⟩, 2) :=
  bag_ring_invariant.2 ⟨List.replicate 255 (Retired.plain 0), []⟩ (Retired.plain 1) 3
    (by simp [DEFAULT_BAG_SIZE])

/-- Witness for C10: with guard count 0 the exit aborts; with guard count 1 it
succeeds, and the count goes from 1 to 0. -/
theorem set_inactive_underflow_spec_witness :
    Local.set_inactive ⟨3, 0, LocalInner.new 0 ⟨100, 100⟩⟩ ⟨0, [], []⟩ = none ∧
    (1 ≤ (⟨3, 1, LocalInner.new 0 ⟨100, 100⟩⟩ : Local).guard_count ∧
      (⟨3, 0, LocalInner.new 0 ⟨100, 100⟩⟩ : Local).guard_count =
        (⟨3, 1, LocalInner.new 0 ⟨100, 100⟩⟩ : Local).guard_count - 1) :=
  ⟨(set_inactive_underflow_spec ⟨3, 0, LocalInner.new 0 ⟨100, 100⟩⟩ ⟨0, [], []⟩).1 rfl,
   (set_inactive_underflow_spec ⟨3, 1, LocalInner.new 0 ⟨100, 100⟩⟩ ⟨0, [], []⟩).2
     ⟨3, 0, LocalInner.new 0 ⟨100, 100⟩⟩ ⟨0, [], []⟩ rfl⟩

/-- C4: a sealed bag queue whose seal has a determined relative age against the
adopting thread's epoch is placed — by pushing the sealed header itself as a single
retired record through the usual retire path — into `queues[cur]` for age 0, into
`queues[(cur + 2) % 3]` for age 1, and into `queues[(cur + 1) % 3]` for age 2; a
sealed queue of undetermined age is destroyed immediately, its destructor reclaiming
every record in its queue. -/
theorem retire_sealed_age_spec (b : EpochBagQueues) (g se : Nat) (shead : List Retired)
    (stail : List (List Retired)) (pool : Nat) :
    (Epoch.relative_age se g = some PossibleAge.SameEpoch →
      b.retire_sealed g se shead stail pool =
        (b.set b.curr_idx
          ((b.get b.curr_idx).retire_record (Retired.sealedHdr se shead stail) pool).1,
         ((b.get b.curr_idx).retire_record (Retired.sealedHdr se shead stail) pool).2,
         [])) ∧
    (Epoch.relative_age se g = some PossibleAge.OneEpoch →
      b.retire_sealed g se shead stail pool =
        (b.set ((b.curr_idx + 2) % 3)
          ((b.get ((b.curr_idx + 2) % 3)).retire_record
            (Retired.sealedHdr se shead stail) pool).1,
         ((b.get ((b.curr_idx + 2) % 3)).retire_record
            (Retired.sealedHdr se shead stail) pool).2,
         [])) ∧
    (Epoch.relative_age se g = some PossibleAge.TwoEpochs →
      b.retire_sealed g se shead stail pool =
        (b.set ((b.curr_idx + 1) % 3)
          ((b.get ((b.curr_idx + 1) % 3)).retire_record
            (Retired.sealedHdr se shead stail) pool).1,
         ((b.get ((b.curr_idx + 1) % 3)).retire_record
            (Retired.sealedHdr se shead stail) pool).2,
         [])) ∧
    (Epoch.relative_age se g = none →
      b.retire_sealed g se shead stail pool =
        (b, pool, Sealed.drop_reclaims ⟨se, shead, stail⟩)) := by
  refine ⟨?_, ?_, ?_, ?_⟩ <;>
    · intro h
      simp only [EpochBagQueues.retire_sealed, h, BAG_QUEUE_COUNT, Sealed.drop_reclaims]

/-- Witness for C4: a same-epoch sealed queue is placed into the current queue; a
sealed queue four epochs old is destroyed immediately. -/
theorem retire_sealed_age_spec_witness :
    EpochBagQueues.retire_sealed EpochBagQueues.new 0 0 [Retired.plain 3] [] 0 =
      (EpochBagQueues.new.set EpochBagQueues.new.curr_idx
        ((EpochBagQueues.new.get EpochBagQueues.new.curr_idx).retire_record
          (Retired.sealedHdr 0 [Retired.plain 3] []) 0).1,
       ((EpochBagQueues.new.get EpochBagQueues.new.curr_idx).retire_record
          (Retired.sealedHdr 0 [Retired.plain 3] []) 0).2,
       []) ∧
    EpochBagQueues.retire_sealed EpochBagQueues.new 4 0 [Retired.plain 3] [] 0 =
      (EpochBagQueues.new, 0, Sealed.drop_reclaims ⟨0, [Retired.plain 3], []⟩) :=
  ⟨(retire_sealed_age_spec EpochBagQueues.new 0 0 [Retired.plain 3] [] 0).1 (by decide),
   (retire_sealed_age_spec EpochBagQueues.new 4 0 [Retired.plain 3] [] 0).2.2.2
     (by decide)⟩

lemma from_bags_eq (b : EpochBagQueues) (c : Nat) (hcur : b.curr_idx < 3) :
    SealedList.from_bags b c =
      (List.range 3).filterMap (fun k =>
        if (b.get ((b.curr_idx + (3 - k)) % 3)).is_empty then none
        else some ⟨Epoch.sub c k, (b.get ((b.curr_idx + (3 - k)) % 3)).head,
          (b.get ((b.curr_idx + (3 - k)) % 3)).tail⟩) := by
  obtain ⟨qa, qb, qc, ci⟩ := b
  simp only at hcur
  have h3 : ci = 0 ∨ ci = 1 ∨ ci = 2 := by omega
  have hr : List.range 3 = [0, 1, 2] := by decide
  rcases h3 with h | h | h <;> subst h <;>
    cases ha : qa.is_empty <;> cases hb : qb.is_empty <;> cases hc : qc.is_empty <;>
      simp [SealedList.from_bags, EpochBagQueues.into_sorted, Sealed.from_queue,
        EpochBagQueues.get, ha, hb, hc, hr, List.enum_cons, List.enumFrom_cons,
        List.enumFrom_nil]

/-- C7: at thread teardown, each non-empty queue of the ring is wrapped in a sealed
element stamped with `cached_epoch − k`, where `k ∈ {0,1,2}` is its rotation distance
from the cursor; the sealed elements are linked newest-first (distance 0 first) into a
single list, and the teardown push deposits that list on the abandoned stack exactly
when it is non-empty. -/
theorem teardown_seal_spec (li : LocalInner) (w : World) (hcur : li.bags.curr_idx < 3) :
    SealedList.from_bags li.bags li.cached_local_epoch =
      (List.range 3).filterMap (fun k =>
        if (li.bags.get ((li.bags.curr_idx + (3 - k)) % 3)).is_empty then none
        else some ⟨Epoch.sub li.cached_local_epoch k,
          (li.bags.get ((li.bags.curr_idx + (3 - k)) % 3)).head,
          (li.bags.get ((li.bags.curr_idx + (3 - k)) % 3)).tail⟩) ∧
    (LocalInner.drop li w).abandoned =
      (if (SealedList.from_bags li.bags li.cached_local_epoch).isEmpty then w.abandoned
       else SealedList.from_bags li.bags li.cached_local_epoch ++ w.abandoned) := by
  refine ⟨from_bags_eq li.bags li.cached_local_epoch hcur, ?_⟩
  cases h : (SealedList.from_bags li.bags li.cached_local_epoch).isEmpty <;>
    simp [LocalInner.drop, AbandonedQueue.push, h]

/-- Witness for C7 at a ring whose current queue holds one record, cached epoch 4. -/
theorem teardown_seal_spec_witness :
    (LocalInner.drop
      ⟨0, ⟨⟨[Retired.plain 1], []⟩, ⟨[], []⟩, ⟨[], []⟩, 0⟩, 0, 4, false, 0, ⟨100, 100⟩, 0⟩
      ⟨0, [], []⟩).abandoned =
      (if (SealedList.from_bags
            (⟨0, ⟨⟨[Retired.plain 1], []⟩, ⟨[], []⟩, ⟨[], []⟩, 0⟩, 0, 4, false, 0,
              ⟨100, 100⟩, 0⟩ : LocalInner).bags
            (⟨0, ⟨⟨[Retired.plain 1], []⟩, ⟨[], []⟩, ⟨[], []⟩, 0⟩, 0, 4, false, 0,
              ⟨100, 100⟩, 0⟩ : LocalInner).cached_local_epoch).isEmpty
       then (⟨0, [], []⟩ : World).abandoned
       else SealedList.from_bags
            (⟨0, ⟨⟨[Retired.plain 1], []⟩, ⟨[], []⟩, ⟨[], []⟩, 0⟩, 0, 4, false, 0,
              ⟨100, 100⟩, 0⟩ : LocalInner).bags
            (⟨0, ⟨⟨[Retired.plain 1], []⟩, ⟨[], []⟩, ⟨[], []⟩, 0⟩, 0, 4, false, 0,
              ⟨100, 100⟩, 0⟩ : LocalInner).cached_local_epoch ++
            (⟨0, [], []⟩ : World).abandoned) :=
  (teardown_seal_spec
    ⟨0, ⟨⟨[Retired.plain 1], []⟩, ⟨[], []⟩, ⟨[], []⟩, 0⟩, 0, 4, false, 0, ⟨100, 100⟩, 0⟩
    ⟨0, [], []⟩ (by decide)).2

/-- C3: in every `try_advance` call that successfully loads the cursor's position
(after the past-the-end normalization that sets the full-sweep flag and moves to the
head), let `other` be that position's announcement: if `other` is the caller's own
entry, announces the loaded global epoch, or is inactive, then the advance counter is
incremented, the cursor advances one step past the examined position, and exactly when
the full-sweep flag holds and the counter has reached the advance threshold the global
epoch is CASed from `g` to `g + 1` (a failed CAS leaves it unchanged); otherwise the
counter and the examined position are left unchanged, so the same position is retried
next time. -/
theorem try_advance_check_spec (li : LocalInner) (self_id : Nat)
    (threads : List ThreadSlot) (g we : Nat) (hne : threads ≠ []) :
    ∃ other li0,
      ((li.thread_iter < threads.length ∧ threads.get? li.thread_iter = some other ∧
          li0 = li) ∨
        (threads.length ≤ li.thread_iter ∧ threads.head? = some other ∧
          li0 = { li with can_advance := true, thread_iter := 0 })) ∧
      ((other.id == self_id || can_advance g other.word) = true →
        LocalInner.try_advance li self_id threads g we =
          some ({ li0 with advance_count := li0.advance_count + 1,
                           thread_iter := li0.thread_iter + 1 },
            if li0.can_advance && li0.config.advance_threshold ≤ li0.advance_count + 1 then
              AtomicEpoch.compare_and_swap we g (Epoch.add g 1)
            else we)) ∧
      ((other.id == self_id || can_advance g other.word) = false →
        LocalInner.try_advance li self_id threads g we = some (li0, we)) := by
  cases hget : threads.get? li.thread_iter with
  | some other =>
      have hlt : li.thread_iter < threads.length := by
        by_contra hlt
        rw [List.get?_eq_none.mpr (Nat.le_of_not_lt hlt)] at hget
        cases hget
      refine ⟨other, li, Or.inl ⟨hlt, rfl, rfl⟩, ?_, ?_⟩
      · intro hcond
        simp only [LocalInner.try_advance, hget, try_advance_step, hcond, if_true]
        split <;> simp_all
      · intro hcond
        simp only [LocalInner.try_advance, hget, try_advance_step, hcond,
          Bool.false_eq_true, if_false]
  | none =>
      have hge : threads.length ≤ li.thread_iter := List.get?_eq_none.mp hget
      cases threads with
      | nil => exact absurd rfl hne
      | cons a as =>
          refine ⟨a, { li with can_advance := true, thread_iter := 0 },
            Or.inr ⟨hge, rfl, rfl⟩, ?_, ?_⟩
          · intro hcond
            simp only [LocalInner.try_advance, hget, List.head?_cons, try_advance_step,
              hcond, if_true]
            split <;> simp_all
          · intro hcond
            simp only [LocalInner.try_advance, hget, List.head?_cons, try_advance_step,
              hcond, Bool.false_eq_true, if_false]

/-- Witness for C3 at a registry with one inactive thread and a cursor at its head. -/
theorem try_advance_check_spec_witness :
    ∃ other li0,
      (((⟨0, EpochBagQueues.new, 0, 0, false, 0, ⟨100, 1⟩, 0⟩ :
            LocalInner).thread_iter < [(⟨5, 1⟩ : ThreadSlot)].length ∧
          [(⟨5, 1⟩ : ThreadSlot)].get? (⟨0, EpochBagQueues.new, 0, 0, false, 0, ⟨100, 1⟩,
            0⟩ : LocalInner).thread_iter = some other ∧
          li0 = ⟨0, EpochBagQueues.new, 0, 0, false, 0, ⟨100, 1⟩, 0⟩) ∨
        ([(⟨5, 1⟩ : ThreadSlot)].length ≤ (⟨0, EpochBagQueues.new, 0, 0, false, 0,
            ⟨100, 1⟩, 0⟩ : LocalInner).thread_iter ∧
          [(⟨5, 1⟩ : ThreadSlot)].head? = some other ∧
          li0 = { (⟨0, EpochBagQueues.new, 0, 0, false, 0, ⟨100, 1⟩, 0⟩ : LocalInner) with
            can_advance := true, thread_iter := 0 })) ∧
      ((other.id == 7 || can_advance 0 other.word) = true →
        LocalInner.try_advance ⟨0, EpochBagQueues.new, 0, 0, false, 0, ⟨100, 1⟩, 0⟩ 7
            [⟨5, 1⟩] 0 0 =
          some ({ li0 with advance_count := li0.advance_count + 1,
                           thread_iter := li0.thread_iter + 1 },
            if li0.can_advance && li0.config.advance_threshold ≤ li0.advance_count + 1 then
              AtomicEpoch.compare_and_swap 0 0 (Epoch.add 0 1)
            else 0)) ∧
      ((other.id == 7 || can_advance 0 other.word) = false →
        LocalInner.try_advance ⟨0, EpochBagQueues.new, 0, 0, false, 0, ⟨100, 1⟩, 0⟩ 7
            [⟨5, 1⟩] 0 0 = some (li0, 0)) :=
  try_advance_check_spec ⟨0, EpochBagQueues.new, 0, 0, false, 0, ⟨100, 1⟩, 0⟩ 7
    [⟨5, 1⟩] 0 0 (by simp)

lemma adopt_fold_cached (ab : List Sealed) (acc : LocalInner × List Retired) :
    ((ab.foldl
        (fun acc s =>
          let rr := acc.1.bags.retire_sealed acc.1.cached_local_epoch s.sealEpoch s.head
            s.tail acc.1.bag_pool
          ({ acc.1 with bags := rr.1, bag_pool := rr.2.1 }, acc.2 ++ rr.2.2))
        acc).1).cached_local_epoch = acc.1.cached_local_epoch := by
  induction ab generalizing acc with
  | nil => rfl
  | cons s ab ih =>
      rw [List.foldl_cons]
      exact ih _

lemma rotate_adopt_cached (li : LocalInner) (ab : List Sealed) :
    ((li.rotate_and_reclaim ab).1).cached_local_epoch = li.cached_local_epoch := by
  unfold LocalInner.rotate_and_reclaim
  exact adopt_fold_cached ab _

lemma acquire_cached (li : LocalInner) (w : World) :
    ((li.acquire_and_assess_global_epoch w).2.1).cached_local_epoch = w.epoch := by
  by_cases hc : li.cached_local_epoch ≠ w.epoch
  · simp only [LocalInner.acquire_and_assess_global_epoch, if_pos hc]
    unfold LocalInner.advance_local_epoch
    rw [rotate_adopt_cached]
  · simp only [LocalInner.acquire_and_assess_global_epoch, if_neg hc]
    exact not_ne_iff.mp hc

lemma acquire_fst (li : LocalInner) (w : World) :
    (li.acquire_and_assess_global_epoch w).1 = w.epoch := by
  by_cases hc : li.cached_local_epoch ≠ w.epoch
  · simp [LocalInner.acquire_and_assess_global_epoch, if_pos hc]
  · simp [LocalInner.acquire_and_assess_global_epoch, if_neg hc]

lemma acquire_threads (li : LocalInner) (w : World) :
    ((li.acquire_and_assess_global_epoch w).2.2.1).threads = w.threads := by
  by_cases hc : li.cached_local_epoch ≠ w.epoch
  · simp [LocalInner.acquire_and_assess_global_epoch, if_pos hc]
  · simp [LocalInner.acquire_and_assess_global_epoch, if_neg hc]

lemma acquire_epoch (li : LocalInner) (w : World) :
    ((li.acquire_and_assess_global_epoch w).2.2.1).epoch = w.epoch := by
  by_cases hc : li.cached_local_epoch ≠ w.epoch
  · simp [LocalInner.acquire_and_assess_global_epoch, if_pos hc]
  · simp [LocalInner.acquire_and_assess_global_epoch, if_neg hc]

lemma try_advance_step_cached (li : LocalInner) (self_id : Nat) (other : ThreadSlot)
    (g we : Nat) :
    ((try_advance_step li self_id other g we).1).cached_local_epoch =
      li.cached_local_epoch := by
  simp only [try_advance_step]
  split
  · split <;> rfl
  · rfl

lemma try_advance_ne_none (li : LocalInner) (self_id : Nat) (threads : List ThreadSlot)
    (g we : Nat) (hne : threads ≠ []) :
    LocalInner.try_advance li self_id threads g we ≠ none := by
  unfold LocalInner.try_advance
  cases hget : threads.get? li.thread_iter with
  | some other => simp
  | none =>
      cases threads with
      | nil => exact absurd rfl hne
      | cons a as => simp

lemma try_advance_cached_of_eq (li : LocalInner) (self_id : Nat)
    (threads : List ThreadSlot) (g we : Nat) (li' : LocalInner) (e' : Nat)
    (h : LocalInner.try_advance li self_id threads g we = some (li', e')) :
    li'.cached_local_epoch = li.cached_local_epoch := by
  unfold LocalInner.try_advance at h
  cases hget : threads.get? li.thread_iter with
  | some other =>
      rw [hget] at h
      have h3 : li' = (try_advance_step li self_id other g we).1 := by
        rw [Option.some.inj h]
      rw [h3, try_advance_step_cached]
  | none =>
      rw [hget] at h
      cases hh : threads.head? with
      | none => rw [hh] at h; cases h
      | some a =>
          rw [hh] at h
          have h3 : li' = (try_advance_step
              { li with can_advance := true, thread_iter := 0 } self_id a g we).1 := by
            rw [Option.some.inj h]
          rw [h3, try_advance_step_cached]

lemma set_active_roundtrip (li : LocalInner) (self_id : Nat) (w : World)
    (hthreads : w.threads ≠ []) :
    ∃ li2 w1 destroyed,
      LocalInner.set_active li self_id w = some (li2, w1, destroyed) ∧
      li2.cached_local_epoch = w.epoch ∧
      w1.threads = store_thread_word w.threads self_id
        (ThreadState.store w.epoch State.Active) := by
  have ha1 := acquire_fst li w
  have ha2 := acquire_cached li w
  have ha3 := acquire_threads li w
  rcases hA : li.acquire_and_assess_global_epoch w with ⟨g0, li1, w1, d⟩
  rw [hA] at ha1 ha2 ha3
  simp only at ha1 ha2 ha3
  subst ha1
  have hth : w1.threads ≠ [] := by rw [ha3]; exact hthreads
  simp only [LocalInner.set_active, hA]
  split
  · next heq =>
      split at heq
      · exact absurd heq (try_advance_ne_none _ _ _ _ _ hth)
      · cases heq
  · next li2 e2 heq =>
      refine ⟨li2, _, d, rfl, ?_, by simp only [ha3]⟩
      split at heq
      · have hc := try_advance_cached_of_eq _ _ _ _ _ _ _ heq
        simp only at hc
        rw [hc]
        exact ha2
      · have hx := (Prod.mk.injEq _ _ _ _).mp (Option.some.inj heq)
        rw [← hx.1]
        exact ha2

/-- C8: from the idle state (guard count 0), an `enter` immediately followed by an
`exit`, with no other operation of this thread in between, writes an announcement word
that decodes to `(g, Inactive)` — where `g` is the global epoch observed at the enter —
and brings the nesting counter back to 0. -/
theorem guard_enter_exit_roundtrip (l : Local) (w : World)
    (hidle : l.guard_count = 0) (heven : w.epoch % 2 = 0) (hlt : w.epoch < WORD)
    (hthreads : w.threads ≠ []) :
    ∃ l1 w1 destroyed l2 w2,
      Local.set_active l w = some (l1, w1, destroyed) ∧
      Local.set_inactive l1 w1 = some (l2, w2) ∧
      l2.guard_count = 0 ∧
      w2.threads = store_thread_word w1.threads l.self_id
        (ThreadState.store w.epoch State.Quiescent) ∧
      ThreadState.load_decompose (ThreadState.store w.epoch State.Quiescent) =
        (w.epoch, State.Quiescent) := by
  obtain ⟨li2, w1, d, hsa, hcached, hthreads1⟩ :=
    set_active_roundtrip l.inner l.self_id w hthreads
  refine ⟨{ l with guard_count := 0 + 1, inner := li2 }, w1, d,
    { l with guard_count := 0, inner := li2 },
    { w1 with threads := li2.set_inactive l.self_id w1.threads }, ?_, ?_, rfl, ?_, ?_⟩
  · simp only [Local.set_active, hidle, if_pos]
    rw [hsa]
  · simp [Local.set_inactive]
  · simp only [LocalInner.set_inactive, hcached]
  · exact load_decompose_store w.epoch State.Quiescent heven hlt

/-- Witness for C8: a registered thread at global epoch 0 enters and exits once. -/
theorem guard_enter_exit_roundtrip_witness :
    ∃ l1 w1 destroyed l2 w2,
      Local.set_active ⟨5, 0, LocalInner.new 0 ⟨100, 100⟩⟩
          ⟨0, [⟨5, ThreadState.new 0⟩], []⟩ = some (l1, w1, destroyed) ∧
      Local.set_inactive l1 w1 = some (l2, w2) ∧
      l2.guard_count = 0 ∧
      w2.threads = store_thread_word w1.threads
        (⟨5, 0, LocalInner.new 0 ⟨100, 100⟩⟩ : Local).self_id
        (ThreadState.store (⟨0, [⟨5, ThreadState.new 0⟩], []⟩ : World).epoch
          State.Quiescent) ∧
      ThreadState.load_decompose
          (ThreadState.store (⟨0, [⟨5, ThreadState.new 0⟩], []⟩ : World).epoch
            State.Quiescent) =
        ((⟨0, [⟨5, ThreadState.new 0⟩], []⟩ : World).epoch, State.Quiescent) :=
  guard_enter_exit_roundtrip ⟨5, 0, LocalInner.new 0 ⟨100, 100⟩⟩
    ⟨0, [⟨5, ThreadState.new 0⟩], []⟩ rfl (by decide) (by decide) (by simp)
